import Mathlib

/-!
Shallow embedding of the habit-tracker application (`src/app.py`).

Calendar dates are modelled as proleptic-Gregorian ordinals (`Int`, day
0001-01-01 = 1, as Python's `date.toordinal`); subtracting
`timedelta(days=1)` is subtraction by 1.  The database is modelled as a
record of the two tables (`habit`, `checking`) as lists of rows, with the
autoincrement counters made explicit.  Request bodies are association
lists of string key/value pairs; a request carries its form-encoded body
and, when the content type is JSON, the decoded JSON object.
-/

/-- A row of the `habit` table (`class Habit`, src/app.py lines 16-23). -/
structure HabitRow where
  id : Int
  name : String
  color : String
  goal_type : String
  target_per_day : Int
  created_at : Int
  deriving DecidableEq, Repr

/-- A row of the `checking` table (`class Checking`, src/app.py lines 25-30). -/
structure CheckingRow where
  id : Int
  habit_id : Int
  date : Int
  deriving DecidableEq, Repr

/-- The database state: the two tables plus the autoincrement counters. -/
structure DB where
  habits : List HabitRow
  checkings : List CheckingRow
  next_habit_id : Int
  next_checking_id : Int
  deriving DecidableEq, Repr

/-- An HTTP request body: the form-encoded fields, and the decoded JSON
object when the request's content type is JSON (`None` otherwise). -/
structure Request where
  form : List (String × String)
  jsonBody : Option (List (String × String))
  deriving DecidableEq, Repr

/-- `get_streak_from_dates(dates_set, today)` (src/app.py lines 39-46):
walk backward from `today` while the day is in the set, counting steps.
The Python `while` loop terminates because each visited day is a distinct
member of the finite set that is `≤ today`; the measure below is exactly
that set of not-yet-ruled-out members. -/
def get_streak_from_dates (dates_set : Finset Int) (today : Int) : Nat :=
  if h : today ∈ dates_set then
    1 + get_streak_from_dates dates_set (today - 1)
  else
    0
termination_by (dates_set.filter (fun x => x ≤ today)).card
decreasing_by
  apply Finset.card_lt_card
  constructor
  · intro x hx
    simp only [Finset.mem_filter] at hx ⊢
    exact ⟨hx.1, by omega⟩
  · intro hsub
    have := hsub (Finset.mem_filter.mpr ⟨h, le_refl today⟩)
    simp only [Finset.mem_filter] at this
    omega

/-- The `while` loop of `get_streak_from_dates`, written operationally with
explicit fuel: `none` means the fuel ran out before the loop exited. -/
def streakLoop (dates_set : Finset Int) : Nat → Int → Nat → Option Nat
  | 0, d, s => if d ∈ dates_set then none else some s
  | fuel + 1, d, s =>
      if d ∈ dates_set then streakLoop dates_set fuel (d - 1) (s + 1)
      else some s

/-- abbreviated weekday names as produced by `strftime('%a')` (C locale). -/
def weekdayAbbrev : Nat → String
  | 0 => "Mon"
  | 1 => "Tue"
  | 2 => "Wed"
  | 3 => "Thu"
  | 4 => "Fri"
  | _ => "Sat"

/-- `day.strftime('%a')`: ordinal 1 (0001-01-01) is a Monday. -/
def strftime_a (d : Int) : String :=
  if ((d - 1) % 7).toNat = 6 then "Sun" else weekdayAbbrev (((d - 1) % 7).toNat)

/-- `[today - timedelta(days=i) for i in reversed(range(days_window))]`
(src/app.py lines 51, 70, 90): the last `n` days, oldest first, ending at
`today`. -/
def weekDays (today : Int) (n : Nat) : List Int :=
  ((List.range n).reverse).map (fun i : Nat => today - (i : Int))

theorem weekDays_length (today : Int) (n : Nat) : (weekDays today n).length = n := by
  rw [weekDays, List.length_map, List.length_reverse, List.length_range]

theorem weekDays_get (today : Int) (n : Nat) (i : Nat) (hi : i < n) :
    (weekDays today n).get ⟨i, by simpa [weekDays_length] using hi⟩
      = today - ((n - 1 - i : Nat) : Int) := by
  simp only [weekDays, List.get_eq_getElem, List.getElem_map,
    List.getElem_reverse, List.getElem_range, List.length_range]

/-- `get_weekly_data_for_habit(habit_id, days_window)` (src/app.py lines
48-65), with the `Checking` table, the habit id and `date.today()` passed
explicitly.  `none` models the `IndexError` the source raises on `days[0]`
when the window is empty. -/
def get_weekly_data_for_habit (rows : List CheckingRow) (habit_id : Int)
    (today : Int) (days_window : Nat) : Option (List String × List Int) :=
  let days := weekDays today days_window
  match days with
  | [] => none
  | day0 :: _ =>
    let checkings := rows.filter (fun c => c.habit_id == habit_id && day0 ≤ c.date)
    let checking_dates := checkings.map (fun c => c.date)
    let data := days.map (fun day => if checking_dates.contains day then (1 : Int) else 0)
    let labels := days.map strftime_a
    some (labels, data)

/-- The `daily_counts` dictionary loop of `get_weekly_data_all_habits`
(src/app.py lines 76-78): `daily_counts[c.date] = daily_counts.get(c.date, 0) + 1`,
with `.get(day, 0)` built in as the default value 0. -/
def dailyCounts (checkings : List CheckingRow) : Int → Nat :=
  checkings.foldl
    (fun counts c => fun day => if day = c.date then counts c.date + 1 else counts day)
    (fun _ => 0)

/-- `get_weekly_data_all_habits(days_window)` (src/app.py lines 67-83). -/
def get_weekly_data_all_habits (rows : List CheckingRow)
    (today : Int) (days_window : Nat) : Option (List String × List Nat) :=
  let days := weekDays today days_window
  match days with
  | [] => none
  | day0 :: _ =>
    let checkings := rows.filter (fun c => day0 ≤ c.date)
    let counts := dailyCounts checkings
    let data := days.map (fun day => counts day)
    let labels := days.map strftime_a
    some (labels, data)

/-- Python `calendar.isleap` / the Gregorian leap-year rule used by `date`. -/
def isLeapYear (y : Int) : Bool :=
  y % 4 == 0 && (y % 100 != 0 || y % 400 == 0)

/-- Length of month `m` of year `y`. -/
def daysInMonth (y m : Int) : Int :=
  if m = 2 then (if isLeapYear y then 29 else 28)
  else if m = 4 ∨ m = 6 ∨ m = 9 ∨ m = 11 then 30
  else 31

/-- Days in all years before year `y` (proleptic Gregorian). -/
def daysBeforeYear (y : Int) : Int :=
  365 * (y - 1) + (y - 1) / 4 - (y - 1) / 100 + (y - 1) / 400

/-- Days in the months of year `y` strictly before month `m`. -/
def daysBeforeMonth (y : Int) (m : Nat) : Int :=
  ((List.range (m - 1)).map (fun k => daysInMonth y ((k : Int) + 1))).sum

/-- Python `str.strip()`: drop leading and trailing whitespace. -/
def pyStrip (s : String) : String :=
  ⟨((s.data.dropWhile Char.isWhitespace).reverse.dropWhile Char.isWhitespace).reverse⟩

/-- The numeric value of a digit string (its characters assumed digits). -/
def digitsToNat (l : List Char) : Nat :=
  l.foldl (fun n c => n * 10 + (c.toNat - 48)) 0

/-- Python `int(str)`: an optional sign followed by at least one decimal
digit; anything else raises `ValueError`, modelled `none`. -/
def pyInt (s : String) : Option Int :=
  match s.data with
  | '-' :: rest =>
      if rest ≠ [] ∧ rest.all Char.isDigit then some (-(digitsToNat rest : Int)) else none
  | l =>
      if l ≠ [] ∧ l.all Char.isDigit then some ((digitsToNat l : Int)) else none

/-- `date.fromisoformat` on the canonical `YYYY-MM-DD` form, returning the
date's proleptic-Gregorian ordinal; `none` models the `ValueError` that the
`toggle` handler turns into the `invalid_payload` response. -/
def date_fromisoformat (s : String) : Option Int :=
  match s.data.splitOn '-' with
  | [ys, ms, ds] =>
    if ys.length = 4 ∧ ms.length = 2 ∧ ds.length = 2
        ∧ ys.all Char.isDigit ∧ ms.all Char.isDigit ∧ ds.all Char.isDigit then
      let y := digitsToNat ys
      let m := digitsToNat ms
      let d := digitsToNat ds
      if 1 ≤ y ∧ 1 ≤ m ∧ m ≤ 12 ∧ 1 ≤ d ∧ (d : Int) ≤ daysInMonth y m then
        some (daysBeforeYear y + daysBeforeMonth y m + d)
      else none
    else none
  | _ => none

/-- `request.form.get(key, default)`: look a field up in the form-encoded
body only (a JSON body never populates `request.form`). -/
def formGet (req : Request) (key dflt : String) : String :=
  match req.form.lookup key with
  | some v => v
  | none => dflt

/-- `request.get_json(silent=True) or request.form` (src/app.py line 178):
the decoded JSON object when the body is JSON and the object is non-empty
(an empty dict is falsy in Python), the form fields otherwise. -/
def requestData (req : Request) : List (String × String) :=
  match req.jsonBody with
  | some j => if j.isEmpty then req.form else j
  | none => req.form

/-- Outcome of `create_habit` (src/app.py lines 109-136): the branch taken
(flash + redirect vs. JSON is decided later from the request headers and
does not affect the state or the fields reported). -/
inductive CreateResult
  | missingName
  | created (id : Int) (name color : String)
  | uniqueError
  deriving DecidableEq, Repr

/-- `create_habit()` (src/app.py lines 109-136).  Fields are read from
`request.form` only.  The `IntegrityError` branch fires exactly when the
unique constraint on `habit.name` is violated, and rolls the insert back. -/
def create_habit (db : DB) (req : Request) (now : Int) : DB × CreateResult :=
  let name := pyStrip (formGet req "name" "")
  let color := pyStrip (formGet req "color" "#3b82f6")
  if name = "" then (db, .missingName)
  else if db.habits.any (fun h => h.name == name) then (db, .uniqueError)
  else
    let habit : HabitRow := ⟨db.next_habit_id, name, color, "daily", 1, now⟩
    ({ db with habits := db.habits ++ [habit], next_habit_id := db.next_habit_id + 1 },
     .created habit.id habit.name habit.color)

/-- Outcome of `edit_habit` (src/app.py lines 138-156). -/
inductive EditResult
  | notFound
  | nameRequired
  | ok (id : Int) (name color : String)
  | uniqueError
  deriving DecidableEq, Repr

/-- `edit_habit(habit_id)` (src/app.py lines 138-156).  `get_or_404` aborts
before the body is read; fields come from `request.form` only; the commit
raises `IntegrityError` (rolled back, db unchanged) exactly when another
habit already holds the new name. -/
def edit_habit (db : DB) (habit_id : Int) (req : Request) : DB × EditResult :=
  match db.habits.find? (fun h => h.id == habit_id) with
  | none => (db, .notFound)
  | some habit =>
    let name := pyStrip (formGet req "name" "")
    let color := pyStrip (formGet req "color" "#3b82f6")
    if name = "" then (db, .nameRequired)
    else if db.habits.any (fun h => h.id != habit_id && h.name == name) then
      (db, .uniqueError)
    else
      ({ db with habits := db.habits.map (fun h =>
            if h.id == habit_id then { h with name := name, color := color } else h) },
       .ok habit.id name color)

/-- `delete_habit(habit_id)` (src/app.py lines 158-173): `none` is the 404
of `get_or_404`; on success the habit row is deleted and the
`cascade='all, delete-orphan'` relationship (src/app.py line 33) deletes
every `Checking` row whose `habit_id` is the deleted habit's id. -/
def delete_habit (db : DB) (habit_id : Int) : Option DB :=
  match db.habits.find? (fun h => h.id == habit_id) with
  | none => none
  | some _ =>
      some { db with habits := db.habits.eraseP (fun h => h.id == habit_id),
                     checkings := db.checkings.filter (fun c => c.habit_id != habit_id) }

/-- The JSON body `{"ok": ..., "checked": ..., "streak": ...}` returned by
`toggle` on a valid payload. -/
structure ToggleResp where
  ok : Bool
  checked : Bool
  streak : Nat
  deriving DecidableEq, Repr

/-- `toggle()` after payload validation (src/app.py lines 185-200): delete
the first `Checking` matching `(habit_id, date)` if one exists, insert a
fresh row otherwise, then recompute the streak from the habit's remaining
checking dates against `date.today()` (passed as `today`). -/
def toggle (db : DB) (hid : Int) (d : Int) (today : Int) : DB × ToggleResp :=
  let step : DB × Bool :=
    match db.checkings.find? (fun c => c.habit_id == hid && c.date == d) with
    | some _ =>
        ({ db with checkings := db.checkings.eraseP (fun c => c.habit_id == hid && c.date == d) },
         false)
    | none =>
        ({ db with checkings := db.checkings ++ [⟨db.next_checking_id, hid, d⟩],
                   next_checking_id := db.next_checking_id + 1 },
         true)
  let dates := ((step.1.checkings.filter (fun c => c.habit_id == hid)).map (fun c => c.date)).toFinset
  (step.1, ⟨true, step.2, get_streak_from_dates dates today⟩)

/-- `toggle()` including payload extraction (src/app.py lines 175-200):
fields come from the JSON body when present (and non-falsy), else the
form; `int(...)`/`date.fromisoformat(...)` failures yield the 400
`invalid_payload` response, modelled as `none`. -/
def toggle_handler (db : DB) (req : Request) (today : Int) : DB × Option ToggleResp :=
  let data := requestData req
  match (data.lookup "habit_id").bind pyInt,
        (data.lookup "date").bind date_fromisoformat with
  | some hid, some d =>
      let r := toggle db hid d today
      (r.1, some r.2)
  | _, _ => (db, none)

/-- The `(habit_id, date)` content of the `checking` table: which habit is
checked on which day, the state the dashboard and analytics read. -/
def checkedPairs (db : DB) : List (Int × Int) :=
  db.checkings.map (fun c => (c.habit_id, c.date))

/-- Whether some `Checking` row marks habit `hid` done on day `d`. -/
def checkedOn (rows : List CheckingRow) (hid d : Int) : Bool :=
  rows.any (fun c => c.habit_id == hid && c.date == d)

/-- The number of distinct habits having a `Checking` row on day `d`. -/
def distinctHabitsCheckedOn (rows : List CheckingRow) (d : Int) : Nat :=
  (((rows.filter (fun c => c.date == d)).map (fun c => c.habit_id)).dedup).length

/-! ## Helper lemmas -/

theorem get_streak_eq (D : Finset Int) (T : Int) :
    get_streak_from_dates D T =
      if T ∈ D then 1 + get_streak_from_dates D (T - 1) else 0 := by
  rw [get_streak_from_dates]
  by_cases h : T ∈ D <;> simp [h]

theorem card_filter_pred_lt (D : Finset Int) (T : Int) (h : T ∈ D) :
    (D.filter (fun x => x ≤ T - 1)).card < (D.filter (fun x => x ≤ T)).card := by
  apply Finset.card_lt_card
  constructor
  · intro x hx
    simp only [Finset.mem_filter] at hx ⊢
    exact ⟨hx.1, by omega⟩
  · intro hsub
    have := hsub (Finset.mem_filter.mpr ⟨h, le_refl T⟩)
    simp only [Finset.mem_filter] at this
    omega

theorem streak_le_card_filter (D : Finset Int) (T : Int) :
    get_streak_from_dates D T ≤ (D.filter (fun x => x ≤ T)).card := by
  suffices H : ∀ (n : Nat) (T : Int), (D.filter (fun x => x ≤ T)).card ≤ n →
      get_streak_from_dates D T ≤ (D.filter (fun x => x ≤ T)).card by
    exact H _ T le_rfl
  intro n
  induction n with
  | zero =>
    intro T h
    rw [get_streak_eq]
    by_cases hT : T ∈ D
    · exact absurd (card_filter_pred_lt D T hT) (by omega)
    · simp [hT]
  | succ n ih =>
    intro T h
    rw [get_streak_eq]
    by_cases hT : T ∈ D
    · simp only [hT, if_true]
      have hlt := card_filter_pred_lt D T hT
      have := ih (T - 1) (by omega)
      omega
    · simp [hT]

theorem streak_le_card (D : Finset Int) (T : Int) :
    get_streak_from_dates D T ≤ D.card :=
  le_trans (streak_le_card_filter D T) (Finset.card_filter_le D _)

theorem streakLoop_eq (D : Finset Int) (fuel : Nat) :
    ∀ (d : Int) (s : Nat), get_streak_from_dates D d ≤ fuel →
      streakLoop D fuel d s = some (s + get_streak_from_dates D d) := by
  induction fuel with
  | zero =>
    intro d s h
    have hd : d ∉ D := by
      intro hmem
      rw [get_streak_eq] at h
      simp [hmem] at h
    rw [get_streak_eq]
    simp [streakLoop, hd]
  | succ fuel ih =>
    intro d s h
    rw [get_streak_eq] at h ⊢
    by_cases hd : d ∈ D
    · simp only [hd, if_true] at h ⊢
      rw [streakLoop, if_pos hd, ih (d - 1) (s + 1) (by omega)]
      congr 1
      omega
    · simp [streakLoop, hd]

/-! ## C1 -/

/-- C1: for every finite set of completion dates `D` and reference date `T`,
`streak(D, T) = 0` when `T ∉ D`, `streak(D, T) = 1 + streak(D, T - 1 day)`
when `T ∈ D`, and in particular the streak over the empty set is 0. -/
theorem C1_streak_recurrence (D : Finset Int) (T : Int) :
    (T ∉ D → get_streak_from_dates D T = 0) ∧
    (T ∈ D → get_streak_from_dates D T = 1 + get_streak_from_dates D (T - 1)) ∧
    get_streak_from_dates (∅ : Finset Int) T = 0 := by
  refine ⟨fun h => ?_, fun h => ?_, ?_⟩
  · rw [get_streak_eq, if_neg h]
  · rw [get_streak_eq, if_pos h]
  · rw [get_streak_eq]
    simp

/-- Concrete instance of `C1_streak_recurrence`: the set {day 99, day 100}
at reference day 100. -/
theorem C1_streak_recurrence_witness :
    (100 ∉ ({99, 100} : Finset Int) → get_streak_from_dates {99, 100} 100 = 0) ∧
    (100 ∈ ({99, 100} : Finset Int) →
      get_streak_from_dates {99, 100} 100 = 1 + get_streak_from_dates {99, 100} (100 - 1)) ∧
    get_streak_from_dates (∅ : Finset Int) 100 = 0 :=
  C1_streak_recurrence {99, 100} 100

/-! ## C10 -/

/-- C10: the streak computation terminates — the source's `while` loop,
run with `|D|` units of fuel, exits and returns the streak — and the
result is at most the cardinality of the completion-date set. -/
theorem C10_streak_terminates_bounded (D : Finset Int) (T : Int) :
    streakLoop D D.card T 0 = some (get_streak_from_dates D T) ∧
    get_streak_from_dates D T ≤ D.card := by
  have hb := streak_le_card D T
  refine ⟨?_, hb⟩
  simpa using streakLoop_eq D D.card T 0 hb

/-! ## C7 -/

theorem weekDays_succ (today : Int) (n : Nat) :
    weekDays today (n + 1) = (today - (n : Int)) :: weekDays today n := by
  simp [weekDays, List.range_succ]

theorem weekDays_mem (today : Int) (n : Nat) (x : Int) (hx : x ∈ weekDays today n) :
    today - ((n - 1 : Nat) : Int) ≤ x ∧ x ≤ today := by
  simp only [weekDays, List.mem_map, List.mem_reverse, List.mem_range] at hx
  obtain ⟨i, hi, rfl⟩ := hx
  omega

theorem weekDays_pairwise (today : Int) (n : Nat) :
    List.Pairwise (· < ·) (weekDays today n) := by
  rw [List.pairwise_iff_get]
  intro i j hij
  have hi' : (i : Nat) < n := by have := i.isLt; simpa [weekDays_length] using this
  have hj' : (j : Nat) < n := by have := j.isLt; simpa [weekDays_length] using this
  have e1 : (weekDays today n).get i = today - ((n - 1 - (i : Nat) : Nat) : Int) :=
    weekDays_get today n i hi'
  have e2 : (weekDays today n).get j = today - ((n - 1 - (j : Nat) : Nat) : Int) :=
    weekDays_get today n j hj'
  rw [e1, e2]
  have hij' : (i : Nat) < (j : Nat) := hij
  omega

theorem weekDays_getLast (today : Int) (n : Nat) (hn : 1 ≤ n) :
    (weekDays today n).getLast? = some today := by
  rw [List.getLast?_eq_getElem?, weekDays_length]
  have h := weekDays_get today n (n - 1) (by omega)
  simp only [List.get_eq_getElem] at h
  rw [List.getElem?_eq_getElem (by rw [weekDays_length]; omega)]
  rw [h]
  simp

theorem contains_dates_eq_checkedOn (rows : List CheckingRow) (hid day0 day : Int)
    (hday : day0 ≤ day) :
    ((rows.filter (fun c => c.habit_id == hid && day0 ≤ c.date)).map
        (fun c => c.date)).contains day
      = checkedOn rows hid day := by
  rw [Bool.eq_iff_iff]
  simp only [List.contains_iff_exists_mem_beq, List.mem_map, List.mem_filter,
    checkedOn, List.any_eq_true, Bool.and_eq_true, beq_iff_eq, decide_eq_true_eq]
  constructor
  · rintro ⟨x, ⟨c, ⟨hc, hhid, _⟩, rfl⟩, hbeq⟩
    exact ⟨c, hc, hhid, hbeq.symm⟩
  · rintro ⟨c, hc, hhid, hdate⟩
    exact ⟨c.date, ⟨c, ⟨hc, hhid, by omega⟩, rfl⟩, hdate.symm⟩

/-- C7 as stated is false at window size 0: the source indexes `days[0]`
into an empty list, raising `IndexError` (modelled `none`) instead of
returning two empty parallel sequences. -/
theorem C7_counterexample :
    get_weekly_data_for_habit [] 1 738886 0 = none := rfl

/-- C7 (amended to window sizes ≥ 1): the per-habit weekly series is a
pair of parallel sequences over the window's days, each of length exactly
`n`; the days are strictly increasing (oldest to newest) and end at
`today`; the labels are the days' abbreviated weekday names, and each data
value is 1 if the habit was checked that day and 0 otherwise. -/
theorem C7_weekly_series_shape (rows : List CheckingRow) (hid today : Int)
    (n : Nat) (hn : 1 ≤ n) :
    get_weekly_data_for_habit rows hid today n =
      some ((weekDays today n).map strftime_a,
            (weekDays today n).map
              (fun d => if checkedOn rows hid d then (1 : Int) else 0)) ∧
    ((weekDays today n).map strftime_a).length = n ∧
    ((weekDays today n).map
        (fun d => if checkedOn rows hid d then (1 : Int) else 0)).length = n ∧
    (∀ l ∈ (weekDays today n).map strftime_a,
        l ∈ ["Mon", "Tue", "Wed", "Thu", "Fri", "Sat", "Sun"]) ∧
    List.Pairwise (· < ·) (weekDays today n) ∧
    (weekDays today n).getLast? = some today := by
  refine ⟨?_, by simp [weekDays_length], by simp [weekDays_length], ?_, ?_, ?_⟩
  · obtain ⟨m, rfl⟩ : ∃ m, n = m + 1 := ⟨n - 1, by omega⟩
    rw [get_weekly_data_for_habit]
    rw [weekDays_succ]
    simp only []
    congr 1
    congr 1
    rw [← weekDays_succ]
    apply List.map_congr_left
    intro day hday
    have hmem := weekDays_mem today (m + 1) day hday
    have h0 : today - (m : Int) ≤ day := by
      have : ((m + 1 - 1 : Nat) : Int) = (m : Int) := by omega
      omega
    rw [contains_dates_eq_checkedOn rows hid (today - (m : Int)) day h0]
  · intro l hl
    simp only [List.mem_map] at hl
    obtain ⟨d, _, rfl⟩ := hl
    have hmod : 0 ≤ (d - 1) % 7 ∧ (d - 1) % 7 < 7 :=
      ⟨Int.emod_nonneg _ (by omega), Int.emod_lt_of_pos _ (by omega)⟩
    rw [strftime_a]
    by_cases h6 : ((d - 1) % 7).toNat = 6
    · simp [h6]
    · have : ((d - 1) % 7).toNat < 6 := by omega
      interval_cases h : ((d - 1) % 7).toNat <;> simp [h, weekdayAbbrev]
  · exact weekDays_pairwise today n
  · exact weekDays_getLast today n hn

/-- Concrete instance of `C7_weekly_series_shape`: window size 7 ending at
day 100 with one checking for habit 5 on day 100. -/
theorem C7_weekly_series_shape_witness :
    1 ≤ 7 ∧
    get_weekly_data_for_habit [⟨1, 5, 100⟩] 5 100 7 =
      some ((weekDays 100 7).map strftime_a,
            (weekDays 100 7).map
              (fun d => if checkedOn [⟨1, 5, 100⟩] 5 d then (1 : Int) else 0)) :=
  ⟨by decide, (C7_weekly_series_shape [⟨1, 5, 100⟩] 5 100 7 (by decide)).1⟩

/-! ## C3 -/

theorem dailyCounts_apply (l : List CheckingRow) (d : Int) :
    dailyCounts l d = (l.filter (fun c => c.date == d)).length := by
  suffices H : ∀ acc : Int → Nat,
      (l.foldl (fun counts c => fun day =>
          if day = c.date then counts c.date + 1 else counts day) acc) d
        = acc d + (l.filter (fun c => c.date == d)).length by
    simpa [dailyCounts] using H (fun _ => 0)
  induction l with
  | nil => intro acc; simp
  | cons c l ih =>
    intro acc
    rw [List.foldl_cons, ih]
    by_cases h : d = c.date
    · rw [if_pos h, List.filter_cons, if_pos (by simpa using h.symm)]
      rw [← h]
      simp only [List.length_cons]
      omega
    · rw [if_neg h, List.filter_cons, if_neg (by simpa using fun e => h e.symm)]

theorem filter_window_absorb (rows : List CheckingRow) (day0 day : Int)
    (hday : day0 ≤ day) :
    (rows.filter (fun c => day0 ≤ c.date)).filter (fun c => c.date == day)
      = rows.filter (fun c => c.date == day) := by
  rw [List.filter_filter]
  apply List.filter_congr
  intro c _
  by_cases h : c.date = day
  · simp [h, hday]
  · simp [h]

theorem filter_date_nodup_habit_ids (rows : List CheckingRow) (day : Int)
    (huniq : rows.Pairwise (fun a b => (a.habit_id, a.date) ≠ (b.habit_id, b.date))) :
    ((rows.filter (fun c => c.date == day)).map (fun c => c.habit_id)).Nodup := by
  rw [List.Nodup, List.pairwise_map]
  refine (huniq.filter (fun c => c.date == day)).imp_of_mem ?_
  intro a b ha hb hab heq
  apply hab
  have hda : a.date = day := by simpa using (List.mem_filter.mp ha).2
  have hdb : b.date = day := by simpa using (List.mem_filter.mp hb).2
  rw [Prod.ext_iff]
  exact ⟨heq, hda.trans hdb.symm⟩

theorem dailyCounts_filter_eq_distinct (rows : List CheckingRow) (day0 day : Int)
    (hday : day0 ≤ day)
    (huniq : rows.Pairwise (fun a b => (a.habit_id, a.date) ≠ (b.habit_id, b.date))) :
    dailyCounts (rows.filter (fun c => day0 ≤ c.date)) day
      = distinctHabitsCheckedOn rows day := by
  rw [dailyCounts_apply, filter_window_absorb rows day0 day hday,
    distinctHabitsCheckedOn,
    List.dedup_eq_self.mpr (filter_date_nodup_habit_ids rows day huniq),
    List.length_map]

/-- C3: for every database state satisfying the `(habit_id, date)`
uniqueness invariant and every non-degenerate window, each day's value in
the all-habits weekly series equals the number of distinct habits checked
that day. -/
theorem C3_all_habits_distinct_counts (rows : List CheckingRow) (today : Int)
    (n : Nat) (hn : 1 ≤ n)
    (huniq : rows.Pairwise (fun a b => (a.habit_id, a.date) ≠ (b.habit_id, b.date))) :
    get_weekly_data_all_habits rows today n =
      some ((weekDays today n).map strftime_a,
            (weekDays today n).map (fun d => distinctHabitsCheckedOn rows d)) := by
  obtain ⟨m, rfl⟩ : ∃ m, n = m + 1 := ⟨n - 1, by omega⟩
  rw [get_weekly_data_all_habits]
  rw [weekDays_succ]
  simp only []
  congr 1
  congr 1
  rw [← weekDays_succ]
  apply List.map_congr_left
  intro day hday
  have hmem := weekDays_mem today (m + 1) day hday
  have h0 : today - (m : Int) ≤ day := by
    have : ((m + 1 - 1 : Nat) : Int) = (m : Int) := by omega
    omega
  exact dailyCounts_filter_eq_distinct rows (today - (m : Int)) day h0 huniq

/-- Concrete instance of `C3_all_habits_distinct_counts`: three rows, two
habits checked on day 100, window of 7 days ending at day 100. -/
theorem C3_all_habits_distinct_counts_witness :
    1 ≤ 7 ∧
    ([⟨1, 5, 100⟩, ⟨2, 6, 100⟩, ⟨3, 5, 99⟩] : List CheckingRow).Pairwise
      (fun a b => (a.habit_id, a.date) ≠ (b.habit_id, b.date)) ∧
    get_weekly_data_all_habits [⟨1, 5, 100⟩, ⟨2, 6, 100⟩, ⟨3, 5, 99⟩] 100 7 =
      some ((weekDays 100 7).map strftime_a,
            (weekDays 100 7).map
              (fun d => distinctHabitsCheckedOn [⟨1, 5, 100⟩, ⟨2, 6, 100⟩, ⟨3, 5, 99⟩] d)) := by
  refine ⟨by decide, by decide, ?_⟩
  exact C3_all_habits_distinct_counts _ 100 7 (by decide) (by decide)

/-! ## C2 -/

theorem toggle_find_none (db : DB) (hid d today : Int)
    (h : db.checkings.find? (fun c => c.habit_id == hid && c.date == d) = none) :
    (toggle db hid d today).1
      = { db with checkings := db.checkings ++ [(⟨db.next_checking_id, hid, d⟩ : CheckingRow)],
                  next_checking_id := db.next_checking_id + 1 } ∧
    (toggle db hid d today).2.checked = true := by
  rw [toggle, h]
  exact ⟨rfl, rfl⟩

theorem toggle_find_some (db : DB) (hid d today : Int) (e : CheckingRow)
    (h : db.checkings.find? (fun c => c.habit_id == hid && c.date == d) = some e) :
    (toggle db hid d today).1
      = { db with checkings :=
            db.checkings.eraseP (fun c => c.habit_id == hid && c.date == d) } ∧
    (toggle db hid d today).2.checked = false := by
  rw [toggle, h]
  exact ⟨rfl, rfl⟩

/-- C2: toggling the same `(habit, date)` twice returns the checked state
(the `(habit_id, date)` content of the `checking` table) to the original,
the second response's `checked` is the negation of the first's, and a
single toggle deletes the existing `Checking` reporting `checked:false`
when one exists, and inserts one reporting `checked:true` otherwise.
Rows are compared by their `(habit_id, date)` content: the surrogate
autoincrement id of a re-inserted row is fresh. -/
theorem C2_toggle_pair (db : DB) (hid d today : Int)
    (huniq : db.checkings.Pairwise
      (fun a b => (a.habit_id, a.date) ≠ (b.habit_id, b.date))) :
    (checkedPairs (toggle (toggle db hid d today).1 hid d today).1).Perm
      (checkedPairs db) ∧
    (toggle (toggle db hid d today).1 hid d today).2.checked
      = !(toggle db hid d today).2.checked ∧
    (checkedOn db.checkings hid d = true →
      (toggle db hid d today).2.checked = false ∧
      checkedOn (toggle db hid d today).1.checkings hid d = false ∧
      ∀ c ∈ db.checkings, ¬(c.habit_id = hid ∧ c.date = d) →
        c ∈ (toggle db hid d today).1.checkings) ∧
    (checkedOn db.checkings hid d = false →
      (toggle db hid d today).2.checked = true ∧
      checkedOn (toggle db hid d today).1.checkings hid d = true ∧
      ∀ c ∈ db.checkings, c ∈ (toggle db hid d today).1.checkings) := by
  rcases hfind : db.checkings.find? (fun c => c.habit_id == hid && c.date == d)
    with _ | e
  · -- no existing checking: first toggle inserts, second deletes it again
    obtain ⟨hdb1, hch1⟩ := toggle_find_none db hid d today hfind
    have hnone := List.find?_eq_none.mp hfind
    have hfind2 : (toggle db hid d today).1.checkings.find?
        (fun c => c.habit_id == hid && c.date == d)
          = some (⟨db.next_checking_id, hid, d⟩ : CheckingRow) := by
      rw [hdb1]
      simp only [List.find?_append, hfind, Option.none_or, List.find?]
      simp
    obtain ⟨hdb2, hch2⟩ :=
      toggle_find_some (toggle db hid d today).1 hid d today _ hfind2
    have hback : (toggle (toggle db hid d today).1 hid d today).1.checkings
        = db.checkings := by
      rw [hdb2]
      simp only [hdb1]
      rw [List.eraseP_append_right _ (by intro b hb; simpa using hnone b hb)]
      simp [List.eraseP_cons]
    have hco : checkedOn db.checkings hid d = false := by
      rw [checkedOn, List.any_eq_false]
      exact hnone
    refine ⟨?_, ?_, ?_, ?_⟩
    · rw [checkedPairs, checkedPairs, hback]
    · rw [hch1, hch2]
      rfl
    · intro hcontra
      rw [hco] at hcontra
      exact absurd hcontra (by simp)
    · intro _
      refine ⟨hch1, ?_, ?_⟩
      · rw [hdb1]
        simp [checkedOn]
      · intro c hc
        rw [hdb1]
        exact List.mem_append_left _ hc
  · -- an existing checking: first toggle deletes it, second re-inserts
    obtain ⟨hdb1, hch1⟩ := toggle_find_some db hid d today e hfind
    obtain ⟨hpe, as, bs, hsplit, has⟩ := List.find?_eq_some.mp hfind
    have hpe' : e.habit_id = hid ∧ e.date = d := by simpa using hpe
    have has' : ∀ a ∈ as, ¬(a.habit_id = hid ∧ a.date = d) := by
      intro a ha
      have := has a ha
      simp at this
      tauto
    have hbs' : ∀ b ∈ bs, ¬(b.habit_id = hid ∧ b.date = d) := by
      rw [hsplit] at huniq
      rw [List.pairwise_append] at huniq
      have hcons := huniq.2.1
      rw [List.pairwise_cons] at hcons
      intro b hb hcontra
      apply hcons.1 b hb
      rw [Prod.ext_iff]
      exact ⟨hpe'.1.trans hcontra.1.symm, hpe'.2.trans hcontra.2.symm⟩
    have herase : db.checkings.eraseP (fun c => c.habit_id == hid && c.date == d)
        = as ++ bs := by
      rw [hsplit]
      rw [List.eraseP_append_right _ (by
        intro b hb
        have := has' b hb
        simpa using this)]
      congr 1
      simp only [List.eraseP_cons]
      rw [hpe]
      rfl
    have hrest : ∀ c ∈ as ++ bs, ¬(c.habit_id == hid && c.date == d) = true := by
      intro c hc
      rcases List.mem_append.mp hc with h | h
      · have := has' c h; simpa using this
      · have := hbs' c h; simpa using this
    have hfind2 : (toggle db hid d today).1.checkings.find?
        (fun c => c.habit_id == hid && c.date == d) = none := by
      rw [hdb1]
      simp only [herase]
      exact List.find?_eq_none.mpr hrest
    obtain ⟨hdb2, hch2⟩ :=
      toggle_find_none (toggle db hid d today).1 hid d today hfind2
    have hck2 : (toggle (toggle db hid d today).1 hid d today).1.checkings
        = (as ++ bs) ++ [(⟨db.next_checking_id, hid, d⟩ : CheckingRow)] := by
      rw [hdb2]
      simp only [hdb1, herase]
    have hco : checkedOn db.checkings hid d = true := by
      rw [checkedOn, List.any_eq_true]
      exact ⟨e, List.mem_of_find?_eq_some hfind, hpe⟩
    refine ⟨?_, ?_, ?_, ?_⟩
    · rw [checkedPairs, checkedPairs, hck2, hsplit]
      simp only [List.map_append, List.map_cons, List.map_nil]
      rw [hpe'.1, hpe'.2]
      rw [List.append_assoc]
      exact List.Perm.append_left _ (List.perm_append_singleton _ _)
    · rw [hch1, hch2]
      rfl
    · intro _
      refine ⟨hch1, ?_, ?_⟩
      · rw [hdb1]
        simp only [herase, checkedOn]
        rw [List.any_eq_false]
        exact hrest
      · intro c hc hcne
        rw [hdb1]
        simp only [herase]
        rw [hsplit] at hc
        rcases List.mem_append.mp hc with h | h
        · exact List.mem_append_left _ h
        · rcases List.mem_cons.mp h with h | h
          · exact absurd (by rw [h]; exact hpe') hcne
          · exact List.mem_append_right _ h
    · intro hcontra
      rw [hco] at hcontra
      exact absurd hcontra (by simp)

/-- Concrete instance of `C2_toggle_pair`: one existing checking for habit
5 on day 100, toggled twice. -/
theorem C2_toggle_pair_witness :
    (([⟨1, 5, 100⟩] : List CheckingRow).Pairwise
      (fun a b => (a.habit_id, a.date) ≠ (b.habit_id, b.date))) ∧
    (checkedPairs (toggle (toggle ⟨[], [⟨1, 5, 100⟩], 1, 2⟩ 5 100 100).1 5 100 100).1).Perm
      (checkedPairs ⟨[], [⟨1, 5, 100⟩], 1, 2⟩) ∧
    (toggle (toggle ⟨[], [⟨1, 5, 100⟩], 1, 2⟩ 5 100 100).1 5 100 100).2.checked
      = !(toggle ⟨[], [⟨1, 5, 100⟩], 1, 2⟩ 5 100 100).2.checked := by
  have h : (([⟨1, 5, 100⟩] : List CheckingRow).Pairwise
      (fun a b => (a.habit_id, a.date) ≠ (b.habit_id, b.date))) := by simp
  have hmain := C2_toggle_pair ⟨[], [⟨1, 5, 100⟩], 1, 2⟩ 5 100 100 h
  exact ⟨h, hmain.1, hmain.2.1⟩

/-! ## C4 -/

/-- C4 as stated is false: `create_habit` reads `request.form` only, so
submitting the same fields as a JSON body takes the empty-name error path
(no insert) while the form-encoded body creates the habit. -/
theorem C4_counterexample :
    (create_habit ⟨[], [], 1, 1⟩
        ⟨[], some [("name", "Read"), ("color", "#ff0000")]⟩ 0).2
      = CreateResult.missingName ∧
    (create_habit ⟨[], [], 1, 1⟩
        ⟨[("name", "Read"), ("color", "#ff0000")], none⟩ 0).2
      = CreateResult.created 1 "Read" "#ff0000" := by
  exact ⟨rfl, rfl⟩

/-- C4 amended: only the toggle endpoint accepts JSON and form-encoded
bodies interchangeably (its behaviour depends only on the selected body
data); habit create and edit read the form-encoded body only, so their
effect and response are unchanged when any JSON body is dropped. -/
theorem C4_amended_body_parsing (db : DB) (r1 r2 : Request) (today now hid : Int)
    (hdata : requestData r1 = requestData r2) :
    toggle_handler db r1 today = toggle_handler db r2 today ∧
    (∀ rq : Request, create_habit db rq now = create_habit db ⟨rq.form, none⟩ now) ∧
    (∀ rq : Request, edit_habit db hid rq = edit_habit db hid ⟨rq.form, none⟩) := by
  refine ⟨?_, fun rq => rfl, fun rq => rfl⟩
  rw [toggle_handler, toggle_handler, hdata]

/-- Concrete instance of `C4_amended_body_parsing`: the same toggle payload
form-encoded and as JSON. -/
theorem C4_amended_body_parsing_witness :
    requestData ⟨[("habit_id", "5"), ("date", "2024-01-01")], none⟩
      = requestData ⟨[], some [("habit_id", "5"), ("date", "2024-01-01")]⟩ ∧
    toggle_handler ⟨[], [], 1, 1⟩
        ⟨[("habit_id", "5"), ("date", "2024-01-01")], none⟩ 738886
      = toggle_handler ⟨[], [], 1, 1⟩
        ⟨[], some [("habit_id", "5"), ("date", "2024-01-01")]⟩ 738886 :=
  ⟨rfl, (C4_amended_body_parsing ⟨[], [], 1, 1⟩ _ _ 738886 0 0 rfl).1⟩

/-! ## C5 -/

/-- C5: when the database already contains a habit carrying the requested
(stripped, non-empty) name, the create request ends in the distinguishable
`unique` error, the transaction is rolled back (the state is unchanged),
and in particular the habit count is unchanged. -/
theorem C5_duplicate_name_create (db : DB) (req : Request) (now : Int)
    (hname : pyStrip (formGet req "name" "") ≠ "")
    (hdup : ∃ h ∈ db.habits, h.name = pyStrip (formGet req "name" "")) :
    create_habit db req now = (db, CreateResult.uniqueError) ∧
    (create_habit db req now).1.habits.length = db.habits.length := by
  have hany : db.habits.any (fun h => h.name == pyStrip (formGet req "name" "")) = true := by
    rw [List.any_eq_true]
    obtain ⟨h, hmem, hn⟩ := hdup
    exact ⟨h, hmem, by simpa using hn⟩
  have key : create_habit db req now = (db, CreateResult.uniqueError) := by
    simp only [create_habit]
    rw [if_neg hname, hany]
    rfl
  exact ⟨key, by rw [key]⟩

/-- Concrete instance of `C5_duplicate_name_create`: creating "Read" when a
habit named "Read" exists. -/
theorem C5_duplicate_name_create_witness :
    (pyStrip (formGet ⟨[("name", "Read")], none⟩ "name" "") ≠ "") ∧
    (∃ h ∈ ([⟨1, "Read", "#3b82f6", "daily", 1, 0⟩] : List HabitRow),
        h.name = pyStrip (formGet ⟨[("name", "Read")], none⟩ "name" "")) ∧
    create_habit ⟨[⟨1, "Read", "#3b82f6", "daily", 1, 0⟩], [], 2, 1⟩
        ⟨[("name", "Read")], none⟩ 0
      = (⟨[⟨1, "Read", "#3b82f6", "daily", 1, 0⟩], [], 2, 1⟩, CreateResult.uniqueError) := by
  refine ⟨by decide, ⟨⟨1, "Read", "#3b82f6", "daily", 1, 0⟩, by simp, by decide⟩, ?_⟩
  exact (C5_duplicate_name_create ⟨[⟨1, "Read", "#3b82f6", "daily", 1, 0⟩], [], 2, 1⟩
    ⟨[("name", "Read")], none⟩ 0 (by decide)
    ⟨⟨1, "Read", "#3b82f6", "daily", 1, 0⟩, by simp, by decide⟩).1

/-! ## C6 -/

/-- C6: deleting an existing habit succeeds and leaves no `Checking` row
with the deleted habit's id queryable (the cascade removes them all). -/
theorem C6_delete_cascades (db : DB) (h : HabitRow) (hmem : h ∈ db.habits) :
    ∃ db', delete_habit db h.id = some db' ∧
      ∀ c ∈ db'.checkings, c.habit_id ≠ h.id := by
  rcases hfind : db.habits.find? (fun x => x.id == h.id) with _ | e
  · have := List.find?_eq_none.mp hfind h hmem
    simp at this
  · rw [delete_habit, hfind]
    refine ⟨_, rfl, ?_⟩
    intro c hc
    simp only [List.mem_filter] at hc
    simpa using hc.2

/-- Concrete instance of `C6_delete_cascades`: deleting habit 1, which has
two checkings, while habit 2 keeps its own. -/
theorem C6_delete_cascades_witness :
    ((⟨1, "Read", "#3b82f6", "daily", 1, 0⟩ : HabitRow)
        ∈ ([⟨1, "Read", "#3b82f6", "daily", 1, 0⟩,
            ⟨2, "Run", "#ff0000", "daily", 1, 0⟩] : List HabitRow)) ∧
    ∃ db', delete_habit
        ⟨[⟨1, "Read", "#3b82f6", "daily", 1, 0⟩, ⟨2, "Run", "#ff0000", "daily", 1, 0⟩],
         [⟨1, 1, 100⟩, ⟨2, 1, 99⟩, ⟨3, 2, 100⟩], 3, 4⟩
        (⟨1, "Read", "#3b82f6", "daily", 1, 0⟩ : HabitRow).id = some db' ∧
      ∀ c ∈ db'.checkings,
        c.habit_id ≠ (⟨1, "Read", "#3b82f6", "daily", 1, 0⟩ : HabitRow).id :=
  ⟨by simp, C6_delete_cascades
    ⟨[⟨1, "Read", "#3b82f6", "daily", 1, 0⟩, ⟨2, "Run", "#ff0000", "daily", 1, 0⟩],
     [⟨1, 1, 100⟩, ⟨2, 1, 99⟩, ⟨3, 2, 100⟩], 3, 4⟩
    ⟨1, "Read", "#3b82f6", "daily", 1, 0⟩ (by simp)⟩

/-! ## C8 -/

/-- C8: a successful edit changes only the target habit's `name` and
`color`: its `id`, `goal_type`, `target_per_day` and `created_at` are
unchanged, every habit row other than the target is unchanged (in place),
and the `checking` table and the autoincrement counters are untouched. -/
theorem C8_edit_frame (db : DB) (hid : Int) (req : Request)
    (idv : Int) (nm cl : String)
    (hok : (edit_habit db hid req).2 = EditResult.ok idv nm cl) :
    (edit_habit db hid req).1.checkings = db.checkings ∧
    (edit_habit db hid req).1.next_habit_id = db.next_habit_id ∧
    (edit_habit db hid req).1.next_checking_id = db.next_checking_id ∧
    (edit_habit db hid req).1.habits.length = db.habits.length ∧
    ∀ i : Nat, i < db.habits.length →
      ∃ h h', db.habits[i]? = some h ∧
        (edit_habit db hid req).1.habits[i]? = some h' ∧
        h'.id = h.id ∧ h'.goal_type = h.goal_type ∧
        h'.target_per_day = h.target_per_day ∧ h'.created_at = h.created_at ∧
        (h.id ≠ hid → h' = h) := by
  rcases hfind : db.habits.find? (fun h => h.id == hid) with _ | habit
  · simp only [edit_habit, hfind] at hok
    exact absurd hok (by simp)
  · simp only [edit_habit, hfind] at hok
    by_cases h1 : pyStrip (formGet req "name" "") = ""
    · rw [if_pos h1] at hok
      exact absurd hok (by simp)
    · rw [if_neg h1] at hok
      by_cases h2 : db.habits.any
          (fun h => h.id != hid && h.name == pyStrip (formGet req "name" "")) = true
      · rw [if_pos h2] at hok
        exact absurd hok (by simp)
      · rw [if_neg h2] at hok
        have key : edit_habit db hid req
            = ({ db with habits := db.habits.map (fun h =>
                  if h.id == hid then
                    { h with name := pyStrip (formGet req "name" ""),
                             color := pyStrip (formGet req "color" "#3b82f6") }
                  else h) },
               EditResult.ok habit.id (pyStrip (formGet req "name" ""))
                 (pyStrip (formGet req "color" "#3b82f6"))) := by
          simp only [edit_habit, hfind]
          rw [if_neg h1, if_neg h2]
        rw [key]
        refine ⟨rfl, rfl, rfl, by simp, ?_⟩
        intro i hi
        refine ⟨db.habits[i],
          (if (db.habits[i].id == hid) = true then
            { db.habits[i] with name := pyStrip (formGet req "name" ""),
                                color := pyStrip (formGet req "color" "#3b82f6") }
          else db.habits[i]),
          List.getElem?_eq_getElem hi, ?_, ?_⟩
        · rw [List.getElem?_map, List.getElem?_eq_getElem hi]
          rfl
        · by_cases hh : (db.habits[i].id == hid) = true
          · rw [if_pos hh]
            refine ⟨rfl, rfl, rfl, rfl, fun hne => ?_⟩
            exact absurd (by simpa using hh) hne
          · rw [if_neg hh]
            exact ⟨rfl, rfl, rfl, rfl, fun _ => rfl⟩

/-- Concrete instance of `C8_edit_frame`: renaming habit 1 of two habits. -/
theorem C8_edit_frame_witness :
    (edit_habit ⟨[⟨1, "Read", "#3b82f6", "daily", 1, 7⟩,
                  ⟨2, "Run", "#ff0000", "daily", 1, 8⟩],
        [⟨1, 2, 100⟩], 3, 2⟩ 1 ⟨[("name", "Study"), ("color", "#00ff00")], none⟩).2
      = EditResult.ok 1 "Study" "#00ff00" ∧
    (edit_habit ⟨[⟨1, "Read", "#3b82f6", "daily", 1, 7⟩,
                  ⟨2, "Run", "#ff0000", "daily", 1, 8⟩],
        [⟨1, 2, 100⟩], 3, 2⟩ 1 ⟨[("name", "Study"), ("color", "#00ff00")], none⟩).1.checkings
      = [⟨1, 2, 100⟩] ∧
    (edit_habit ⟨[⟨1, "Read", "#3b82f6", "daily", 1, 7⟩,
                  ⟨2, "Run", "#ff0000", "daily", 1, 8⟩],
        [⟨1, 2, 100⟩], 3, 2⟩ 1 ⟨[("name", "Study"), ("color", "#00ff00")], none⟩).1.habits.length
      = 2 := by
  refine ⟨by decide, ?_, ?_⟩
  · exact (C8_edit_frame ⟨[⟨1, "Read", "#3b82f6", "daily", 1, 7⟩,
        ⟨2, "Run", "#ff0000", "daily", 1, 8⟩], [⟨1, 2, 100⟩], 3, 2⟩ 1
        ⟨[("name", "Study"), ("color", "#00ff00")], none⟩ 1 "Study" "#00ff00"
        (by decide)).1
  · have h := (C8_edit_frame ⟨[⟨1, "Read", "#3b82f6", "daily", 1, 7⟩,
        ⟨2, "Run", "#ff0000", "daily", 1, 8⟩], [⟨1, 2, 100⟩], 3, 2⟩ 1
        ⟨[("name", "Study"), ("color", "#00ff00")], none⟩ 1 "Study" "#00ff00"
        (by decide)).2.2.2.1
    simpa using h

/-! ## C9 -/

/-- C9: a well-formed toggle payload whose `habit_id` matches no existing
habit is not rejected: the handler reports `ok:true, checked:true` and
inserts a `Checking` row referencing no habit (no not-found check exists
on the toggle path). -/
theorem C9_toggle_missing_habit (db : DB) (req : Request) (today hid d : Int)
    (hhid : ((requestData req).lookup "habit_id").bind pyInt = some hid)
    (hdate : ((requestData req).lookup "date").bind date_fromisoformat = some d)
    (hnohabit : ∀ h ∈ db.habits, h.id ≠ hid)
    (hnocheck : checkedOn db.checkings hid d = false) :
    ∃ resp : ToggleResp, (toggle_handler db req today).2 = some resp ∧
      resp.ok = true ∧ resp.checked = true ∧
      ∃ c ∈ (toggle_handler db req today).1.checkings,
        c.habit_id = hid ∧ c.date = d ∧
        ∀ h ∈ (toggle_handler db req today).1.habits, h.id ≠ c.habit_id := by
  have hth1 : (toggle_handler db req today).1 = (toggle db hid d today).1 := by
    rw [toggle_handler, hhid, hdate]
  have hth2 : (toggle_handler db req today).2 = some (toggle db hid d today).2 := by
    rw [toggle_handler, hhid, hdate]
  have hfind : db.checkings.find? (fun c => c.habit_id == hid && c.date == d) = none := by
    rw [List.find?_eq_none]
    rw [checkedOn, List.any_eq_false] at hnocheck
    exact hnocheck
  obtain ⟨hdb1, hch1⟩ := toggle_find_none db hid d today hfind
  refine ⟨(toggle db hid d today).2, hth2, rfl, hch1,
    (⟨db.next_checking_id, hid, d⟩ : CheckingRow), ?_, rfl, rfl, ?_⟩
  · rw [hth1, hdb1]
    exact List.mem_append_right _ (by simp)
  · intro h hh
    rw [hth1, hdb1] at hh
    exact hnohabit h hh

/-- Concrete instance of `C9_toggle_missing_habit`: a JSON toggle payload
for habit 5 against an empty database. -/
theorem C9_toggle_missing_habit_witness :
    (∀ h ∈ (⟨[], [], 1, 1⟩ : DB).habits, h.id ≠ 5) ∧
    ∃ resp : ToggleResp,
      (toggle_handler ⟨[], [], 1, 1⟩
          ⟨[], some [("habit_id", "5"), ("date", "2024-01-01")]⟩ 738886).2 = some resp ∧
      resp.ok = true ∧ resp.checked = true ∧
      ∃ c ∈ (toggle_handler ⟨[], [], 1, 1⟩
          ⟨[], some [("habit_id", "5"), ("date", "2024-01-01")]⟩ 738886).1.checkings,
        c.habit_id = 5 ∧ c.date = 738886 ∧
        ∀ h ∈ (toggle_handler ⟨[], [], 1, 1⟩
            ⟨[], some [("habit_id", "5"), ("date", "2024-01-01")]⟩ 738886).1.habits,
          h.id ≠ c.habit_id :=
  ⟨by simp, C9_toggle_missing_habit ⟨[], [], 1, 1⟩
    ⟨[], some [("habit_id", "5"), ("date", "2024-01-01")]⟩ 738886 5 738886
    (by decide) (by decide) (by simp) (by decide)⟩
